import Mathlib

/-!
Shallow embedding of `lib/spack/spack/util/crypto.py` (Spack's digest
verification utility) and proofs about it.

Modelling conventions:
* A file's contents are a `List Nat` of byte values; the filesystem handed
  to `check`/`checksum` is an `Option (List Nat)`: `none` means the file
  cannot be opened or read (Python raises `IOError`), `some content` means
  reading succeeds and yields `content`.
* The Python source runs under Python 2, so `len(hexdigest) / 2` is integer
  floor division; `String.length s / 2` on `Nat` matches that exactly.
* `hashlib` is an external library, modelled here: a hash object's state is
  the list of bytes absorbed so far (`update` appends, which captures
  hashlib's contract that incremental updates concatenate), and
  finalization maps the absorbed bytes through a deterministic stand-in
  compression function `modelDigest` that returns `digest_size` bytes,
  hex-encoded in lowercase.  No claim depends on the actual MD5/SHA
  compression math, only on digest sizes, determinism and incrementality.
* Python 2 `file.read(n)` returns at most `n` bytes, `''` at EOF, and the
  whole remaining stream when `n` is negative; `pyRead` models this.
-/

/-- Stand-in for an external hashlib compression function: a deterministic
map from the absorbed byte stream to `size` output bytes. -/
def modelDigest (size : Nat) (data : List Nat) : List Nat :=
  (List.range size).map
    (fun i => (data.foldl (fun a b => (a * 31 + b + 1) % 251) (i + size)) % 256)

/-- Lowercase hex digit for a value below 16. -/
def hexChar (n : Nat) : Char :=
  if n < 10 then Char.ofNat (48 + n) else Char.ofNat (87 + n)

/-- Two lowercase hex digits for one byte, most-significant nibble first. -/
def byteToHex (b : Nat) : List Char :=
  [hexChar (b / 16), hexChar (b % 16)]

/-- Lowercase hex encoding of a byte list, as produced by `hexdigest()`. -/
def hexEncode (bs : List Nat) : String :=
  ⟨(bs.map byteToHex).flatten⟩

/-- A hashlib algorithm as the source uses it: a stable name and a raw
output byte length (`digest_size`).  The compression behaviour is supplied
by `HashAlgo.core`. -/
structure HashAlgo where
  name : String
  digest_size : Nat
deriving DecidableEq, Repr

/-- Finalization of the modelled incremental hash: digest of the bytes
absorbed so far. -/
def HashAlgo.core (a : HashAlgo) (data : List Nat) : List Nat :=
  modelDigest a.digest_size data

def md5 : HashAlgo := ⟨"md5", 16⟩
def sha1 : HashAlgo := ⟨"sha1", 20⟩
def sha224 : HashAlgo := ⟨"sha224", 28⟩
def sha256 : HashAlgo := ⟨"sha256", 32⟩
def sha384 : HashAlgo := ⟨"sha384", 48⟩
def sha512 : HashAlgo := ⟨"sha512", 64⟩

/-- Set of acceptable hashes that Spack will use (`_acceptable_hashes`). -/
def _acceptable_hashes : List HashAlgo :=
  [md5, sha1, sha224, sha256, sha384, sha512]

/-- Index for looking up hasher for a digest (`_size_to_hash`): the dict
built from `(h().digest_size, h)` pairs. -/
def _size_to_hash : List (Nat × HashAlgo) :=
  _acceptable_hashes.map (fun h => (h.digest_size, h))

/-- Python dict lookup on `_size_to_hash`; with duplicate keys a dict keeps
the last insertion, hence the `reverse`. -/
def size_to_hash_lookup (k : Nat) : Option HashAlgo :=
  (_size_to_hash.reverse.find? (fun p => p.1 == k)).map Prod.snd

/-- Python 2 `file.read(block_size)` on a stream with `rem` bytes left:
returns the chunk read and the remaining bytes.  A negative size reads
everything; size 0 reads nothing. -/
def pyRead (block_size : Int) (rem : List Nat) : List Nat × List Nat :=
  if block_size < 0 then (rem, [])
  else (rem.take block_size.toNat, rem.drop block_size.toNat)

/-- Fuel-indexed read loop of `checksum`: `while True: data =
file.read(block_size); if not data: break; hasher.update(data)`.  Returns
the bytes absorbed by the hasher.  The fuel only bounds the number of
iterations so the recursion is structural; `checksumLoop_unfold` below
proves that with the fuel `checksumLoop` supplies, this computes exactly
the fixpoint of the while loop. -/
def checksumLoopFuel : Nat → Int → List Nat → List Nat → List Nat
  | 0, _, acc, _ => acc
  | fuel + 1, block_size, acc, rem =>
    if (pyRead block_size rem).1 = [] then acc
    else checksumLoopFuel fuel block_size (acc ++ (pyRead block_size rem).1)
          (pyRead block_size rem).2

/-- Bytes absorbed by the hasher when `checksum` streams a file with
contents `rem` (having already absorbed `acc`). -/
def checksumLoop (block_size : Int) (acc rem : List Nat) : List Nat :=
  checksumLoopFuel (rem.length + 1) block_size acc rem

/-- Digest of the bytes `checksum` absorbs from a readable file with the
given contents and block size. -/
def checksumContent (algo : HashAlgo) (content : List Nat)
    (block_size : Int) : String :=
  hexEncode (algo.core (checksumLoop block_size [] content))

/-- Errors raised by the embedded code. -/
inductive PyIOError where
  | fileUnreadable
deriving DecidableEq, Repr

/-- The `checksum` function: opens the file (failing with an `IOError` when
it is unreadable), streams it through the hasher in `block_size` chunks and
returns the hex digest. -/
def checksum (algo : HashAlgo) (file : Option (List Nat))
    (block_size : Int) : Except PyIOError String :=
  match file with
  | none => .error .fileUnreadable
  | some content => .ok (checksumContent algo content block_size)

/-- The `Checker` object: expected hex digest, block size, last computed
digest (`sum`, initially `None`) and resolved hash constructor. -/
structure Checker where
  block_size : Int
  hexdigest : String
  sum : Option String
  hash_fun : HashAlgo
deriving DecidableEq, Repr

/-- Error message raised by the constructor for an unknown digest size. -/
def unknownHashMsg (hexdigest : String) : String :=
  "Spack knows no hash algorithm for this digest: " ++ hexdigest

/-- The `Checker.__init__` constructor: stores the digest, computes `bytes
= len(hexdigest) / 2` (Python 2 floor division), raises `ValueError` when
`bytes` is not a key of `_size_to_hash`, otherwise resolves the hasher. -/
def Checker.init (hexdigest : String) (block_size : Int) :
    Except String Checker :=
  let bytes := hexdigest.length / 2
  match size_to_hash_lookup bytes with
  | none => .error (unknownHashMsg hexdigest)
  | some h =>
    .ok { block_size := block_size, hexdigest := hexdigest,
          sum := none, hash_fun := h }

/-- The `hash_name` property: name of the resolved hash function. -/
def Checker.hash_name (c : Checker) : String :=
  c.hash_fun.name

/-- The `check` method: `self.sum = checksum(self.hash_fun, filename,
block_size=self.block_size); return self.sum == self.hexdigest`.  An
`IOError` raised by `checksum` propagates before `self.sum` is assigned,
so the checker is returned unchanged in that case. -/
def Checker.check (c : Checker) (file : Option (List Nat)) :
    Checker × Except PyIOError Bool :=
  match checksum c.hash_fun file c.block_size with
  | .error e => (c, .error e)
  | .ok s => ({ c with sum := some s }, .ok (s == c.hexdigest))

instance exceptDecEq {ε α : Type} [DecidableEq ε] [DecidableEq α] :
    DecidableEq (Except ε α) := fun a b =>
  match a, b with
  | .ok x, .ok y =>
    if h : x = y then .isTrue (by rw [h])
    else .isFalse (fun hc => h (by injection hc))
  | .error x, .error y =>
    if h : x = y then .isTrue (by rw [h])
    else .isFalse (fun hc => h (by injection hc))
  | .ok _, .error _ => .isFalse (fun hc => Except.noConfusion hc)
  | .error _, .ok _ => .isFalse (fun hc => Except.noConfusion hc)

/-! Helper lemmas about the read loop. -/

/-- A nonempty read consumes at least one byte of the stream. -/
theorem pyRead_snd_lt (block_size : Int) (rem : List Nat)
    (h : (pyRead block_size rem).1 ≠ []) :
    (pyRead block_size rem).2.length < rem.length := by
  by_cases hb : block_size < 0
  · simp only [pyRead, if_pos hb] at h ⊢
    simpa using List.length_pos.mpr h
  · simp only [pyRead, if_neg hb] at h ⊢
    have h1 : rem ≠ [] := by intro he; simp [he] at h
    have h2 : block_size.toNat ≠ 0 := by intro he; simp [he] at h
    rw [List.length_drop]
    have := List.length_pos.mpr h1
    omega

/-- The loop result does not depend on the fuel, provided the fuel exceeds
the stream length. -/
theorem checksumLoopFuel_congr (block_size : Int) :
    ∀ (f₁ f₂ : Nat) (acc rem : List Nat),
      rem.length < f₁ → rem.length < f₂ →
      checksumLoopFuel f₁ block_size acc rem =
        checksumLoopFuel f₂ block_size acc rem := by
  intro f₁
  induction f₁ generalizing block_size with
  | zero => intro f₂ acc rem h₁; omega
  | succ f ih =>
    intro f₂ acc rem h₁ h₂
    match f₂, h₂ with
    | f' + 1, h₂ =>
      simp only [checksumLoopFuel]
      by_cases hdata : (pyRead block_size rem).1 = []
      · simp [hdata]
      · have hlt := pyRead_snd_lt block_size rem hdata
        simp only [if_neg hdata]
        exact ih block_size f' (acc ++ (pyRead block_size rem).1)
          (pyRead block_size rem).2 (by omega) (by omega)

/-- One read returns a chunk and the rest; chunk and rest concatenate back
to the stream. -/
theorem pyRead_append (block_size : Int) (rem : List Nat) :
    (pyRead block_size rem).1 ++ (pyRead block_size rem).2 = rem := by
  by_cases hb : block_size < 0 <;> simp [pyRead, hb]

/-- With a nonzero block size, the loop absorbs the whole stream. -/
theorem checksumLoopFuel_absorb (fuel : Nat) (block_size : Int)
    (hbs : block_size ≠ 0) (acc rem : List Nat) (hf : rem.length < fuel) :
    checksumLoopFuel fuel block_size acc rem = acc ++ rem := by
  induction fuel generalizing acc rem with
  | zero => omega
  | succ f ih =>
    simp only [checksumLoopFuel]
    by_cases hdata : (pyRead block_size rem).1 = []
    · have hrem : rem = [] := by
        by_cases hb : block_size < 0
        · simpa [pyRead, hb] using hdata
        · have hnz : block_size.toNat ≠ 0 := by omega
          simpa [pyRead, hb, List.take_eq_nil_iff, hnz] using hdata
      subst hrem
      simp [pyRead, ite_self]
    · have hlt := pyRead_snd_lt block_size rem hdata
      rw [if_neg hdata, ih _ _ (by omega), List.append_assoc,
        pyRead_append]

/-- With a nonzero block size, `checksumLoop` absorbs the whole stream. -/
theorem checksumLoop_absorb (block_size : Int) (hbs : block_size ≠ 0)
    (acc rem : List Nat) : checksumLoop block_size acc rem = acc ++ rem :=
  checksumLoopFuel_absorb (rem.length + 1) block_size hbs acc rem
    (by omega)

/-- With block size 0, the first read returns no bytes and the loop stops
at once, absorbing nothing. -/
theorem checksumLoop_zero (acc rem : List Nat) :
    checksumLoop 0 acc rem = acc := by
  simp [checksumLoop, checksumLoopFuel, pyRead]

/-- With a nonzero block size, `checksum` hashes exactly the file's
contents, independently of the block size. -/
theorem checksumContent_eq (a : HashAlgo) (content : List Nat)
    (block_size : Int) (hbs : block_size ≠ 0) :
    checksumContent a content block_size = hexEncode (a.core content) := by
  rw [checksumContent, checksumLoop_absorb block_size hbs [] content,
    List.nil_append]

/-- The modelled compression function returns `size` bytes. -/
theorem modelDigest_length (size : Nat) (data : List Nat) :
    (modelDigest size data).length = size := by
  simp [modelDigest]

/-- Finalizing a hash yields `digest_size` bytes. -/
theorem core_length (a : HashAlgo) (data : List Nat) :
    (a.core data).length = a.digest_size := by
  simp [HashAlgo.core, modelDigest]

/-- Hex encoding yields two characters per byte. -/
theorem hexEncode_length (bs : List Nat) :
    (hexEncode bs).length = 2 * bs.length := by
  show ((bs.map byteToHex).flatten).length = 2 * bs.length
  induction bs with
  | nil => rfl
  | cons b t ih =>
    simp only [List.map_cons, List.flatten_cons, List.length_append, ih,
      byteToHex, List.length_cons, List.length_nil]
    omega

/-- A hex digest produced by `checksum` has twice as many characters as
the algorithm's output has bytes, whatever the block size. -/
theorem checksumContent_length (a : HashAlgo) (content : List Nat)
    (block_size : Int) :
    (checksumContent a content block_size).length = 2 * a.digest_size := by
  rw [checksumContent, hexEncode_length, core_length]

/-- Every registered algorithm is found again under its own digest size. -/
theorem lookup_self (a : HashAlgo) (ha : a ∈ _acceptable_hashes) :
    size_to_hash_lookup a.digest_size = some a := by
  fin_cases ha <;> decide

/-- Construction succeeds and resolves the found hasher when the digest's
byte length is a key of `_size_to_hash`. -/
theorem init_resolved (s : String) (bs : Int) (a : HashAlgo)
    (h : size_to_hash_lookup (s.length / 2) = some a) :
    Checker.init s bs = .ok ⟨bs, s, none, a⟩ := by
  simp [Checker.init, h]

/-- Construction raises `ValueError` when the digest's byte length is not
a key of `_size_to_hash`. -/
theorem init_unknown (s : String) (bs : Int)
    (h : size_to_hash_lookup (s.length / 2) = none) :
    Checker.init s bs = .error (unknownHashMsg s) := by
  simp [Checker.init, h]

/-- The while loop's defining equation holds of `checksumLoop`: it
faithfully models `while True: data = file.read(block_size); if not data:
break; hasher.update(data)`. -/
theorem checksumLoop_unfold (block_size : Int) (acc rem : List Nat) :
    checksumLoop block_size acc rem =
      if (pyRead block_size rem).1 = [] then acc
      else checksumLoop block_size (acc ++ (pyRead block_size rem).1)
            (pyRead block_size rem).2 := by
  unfold checksumLoop
  simp only [checksumLoopFuel]
  by_cases hdata : (pyRead block_size rem).1 = []
  · simp [hdata]
  · have hlt := pyRead_snd_lt block_size rem hdata
    simp only [if_neg hdata]
    exact checksumLoopFuel_congr block_size rem.length
      ((pyRead block_size rem).2.length + 1)
      (acc ++ (pyRead block_size rem).1) (pyRead block_size rem).2
      (by omega) (by omega)

/-! Claim theorems. -/

/-- C1: for every supported algorithm `a` with raw output byte length `L`
(MD5:16, SHA1:20, SHA224:28, SHA256:32, SHA384:48, SHA512:64),
constructing a `Checker` from a digest string of length exactly `2*L`
succeeds and resolves to `a`, observable via `hash_name`. -/
theorem claim_C1 (a : HashAlgo) (ha : a ∈ _acceptable_hashes) (s : String)
    (bs : Int) (hlen : s.length = 2 * a.digest_size) :
    ∃ c : Checker, Checker.init s bs = .ok c ∧ c.hash_fun = a ∧
      c.hash_name = a.name := by
  have hdiv : s.length / 2 = a.digest_size := by omega
  exact ⟨⟨bs, s, none, a⟩,
    init_resolved s bs a (hdiv ▸ lookup_self a ha), rfl, rfl⟩

/-- Witness for C1: the 32-character digest resolves to md5. -/
theorem claim_C1_witness :
    ∃ c : Checker,
      Checker.init "aaaaaaaaaaaaaaaaaaaaaaaaaaaaaaaa" (2 ^ 20) = .ok c ∧
      c.hash_fun = md5 ∧ c.hash_name = md5.name :=
  claim_C1 md5 (by decide) "aaaaaaaaaaaaaaaaaaaaaaaaaaaaaaaa" (2 ^ 20)
    (by decide)

/-- C2: `check` on a readable file stores the computed digest in `sum` and
returns exactly the case-sensitive string comparison of computed and
expected digests; any `Except.ok` outcome (in particular a `false` one)
implies the file was readable and the boolean reflects digest equality,
never an I/O failure. -/
theorem claim_C2 (c : Checker) (content : List Nat) :
    (c.check (some content)).1.sum
        = some (checksumContent c.hash_fun content c.block_size) ∧
    (c.check (some content)).2
        = .ok (checksumContent c.hash_fun content c.block_size
                == c.hexdigest) ∧
    (∀ (file : Option (List Nat)) (b : Bool), (c.check file).2 = .ok b →
      ∃ d, file = some d ∧
        (b = true ↔ checksumContent c.hash_fun d c.block_size
                      = c.hexdigest)) := by
  refine ⟨rfl, rfl, ?_⟩
  intro file b hb
  cases file with
  | none => simp [Checker.check, checksum] at hb
  | some d =>
    refine ⟨d, rfl, ?_⟩
    simp only [Checker.check, checksum] at hb
    cases hb
    exact ⟨fun h => by simpa [beq_iff_eq] using h,
      fun h => by simp [h]⟩

/-- Witness for C2: a checker expecting 32 zeros sees a mismatch on the
one-byte file `[97]`, and the `Except.ok false` outcome certifies the file
was read and the digests differ. -/
theorem claim_C2_witness :
    ∃ d, (some [97] : Option (List Nat)) = some d ∧
      (false = true ↔
        checksumContent md5 d (2 ^ 20)
          = "00000000000000000000000000000000") :=
  (claim_C2 ⟨2 ^ 20, "00000000000000000000000000000000", none, md5⟩
    [97]).2.2 (some [97]) false (by decide)

/-- C5: when the file cannot be read, `check` propagates the I/O error
uncaught and leaves the checker — in particular its last-computed digest
`sum` — exactly as it was, still `none` if never set. -/
theorem claim_C5 (c : Checker) :
    c.check none = (c, .error PyIOError.fileUnreadable) ∧
    (c.check none).1.sum = c.sum :=
  ⟨rfl, rfl⟩

/-- C6: round-trip — computing a file's digest with a supported algorithm,
constructing a `Checker` from that exact digest string, and checking the
same unchanged file resolves the same algorithm and returns `true`. -/
theorem claim_C6 (a : HashAlgo) (ha : a ∈ _acceptable_hashes)
    (content : List Nat) :
    ∃ c : Checker,
      Checker.init (checksumContent a content (2 ^ 20)) (2 ^ 20) = .ok c ∧
      c.hash_fun = a ∧
      (c.check (some content)).2 = .ok true := by
  have hlen := checksumContent_length a content (2 ^ 20)
  have hdiv : (checksumContent a content (2 ^ 20)).length / 2
      = a.digest_size := by omega
  refine ⟨⟨2 ^ 20, checksumContent a content (2 ^ 20), none, a⟩,
    init_resolved _ (2 ^ 20) a (hdiv ▸ lookup_self a ha), rfl, ?_⟩
  simp [Checker.check, checksum]

/-- Witness for C6: the round trip succeeds for md5 on the file `[97]`. -/
theorem claim_C6_witness :
    ∃ c : Checker,
      Checker.init (checksumContent md5 [97] (2 ^ 20)) (2 ^ 20) = .ok c ∧
      c.hash_fun = md5 ∧
      (c.check (some [97])).2 = .ok true :=
  claim_C6 md5 (by decide) [97]

/-- C7: block-size invariance — `checksum` over the same contents with
block sizes 1, 64 and `2^20` produces the same hex digest. -/
theorem claim_C7 (a : HashAlgo) (content : List Nat) :
    checksumContent a content 1 = checksumContent a content (2 ^ 20) ∧
    checksumContent a content 64 = checksumContent a content (2 ^ 20) := by
  rw [checksumContent_eq a content 1 (by omega),
    checksumContent_eq a content 64 (by omega),
    checksumContent_eq a content (2 ^ 20) (by omega)]
  exact ⟨rfl, rfl⟩

/-- C8: idempotence — calling `check` twice on the same unchanged readable
file yields the same boolean result and the same last-computed digest both
times. -/
theorem claim_C8 (c : Checker) (content : List Nat) :
    ((c.check (some content)).1.check (some content)).2
        = (c.check (some content)).2 ∧
    ((c.check (some content)).1.check (some content)).1.sum
        = (c.check (some content)).1.sum :=
  ⟨rfl, rfl⟩

/-- C9: the registry holds exactly MD5, SHA1, SHA224, SHA256, SHA384 and
SHA512, their output byte lengths are pairwise distinct, the derived
size-to-hash mapping has one entry per algorithm, and length resolution
finds each algorithm under its own size. -/
theorem claim_C9 :
    _acceptable_hashes.map HashAlgo.name
        = ["md5", "sha1", "sha224", "sha256", "sha384", "sha512"] ∧
    _acceptable_hashes.map HashAlgo.digest_size
        = [16, 20, 28, 32, 48, 64] ∧
    (_acceptable_hashes.map HashAlgo.digest_size).Nodup ∧
    _size_to_hash.length = _acceptable_hashes.length ∧
    (∀ a ∈ _acceptable_hashes,
      size_to_hash_lookup a.digest_size = some a) := by
  decide

/-- Counterexample to C3: a digest string of odd length 33 does not make
construction fail — the Python 2 floor division `len(hexdigest) / 2`
truncates 33 to 16 and construction succeeds, resolving md5. -/
theorem claim_C3_cex :
    ∃ c : Checker,
      Checker.init (String.mk (List.replicate 33 'a')) (2 ^ 20) = .ok c ∧
      c.hash_name = "md5" :=
  ⟨⟨2 ^ 20, String.mk (List.replicate 33 'a'), none, md5⟩, by decide, rfl⟩

/-- C3 (amended): construction performs no well-formedness validation of
the digest string; the byte length is the floor of half the string length,
so an odd-length string is accepted — resolving the algorithm whose output
length is `(length - 1) / 2` — whenever that truncated length is
registered, and otherwise construction raises `ValueError`, not a
`MalformedDigestString` error. -/
theorem claim_C3_amended (s : String) (bs : Int)
    (_hodd : s.length % 2 = 1) :
    (∀ a : HashAlgo, size_to_hash_lookup (s.length / 2) = some a →
      ∃ c : Checker, Checker.init s bs = .ok c ∧ c.hash_fun = a) ∧
    (size_to_hash_lookup (s.length / 2) = none →
      Checker.init s bs = .error (unknownHashMsg s)) := by
  refine ⟨fun a h => ⟨⟨bs, s, none, a⟩, init_resolved s bs a h, rfl⟩,
    fun h => init_unknown s bs h⟩

/-- Witness for the amended C3: the odd-length 33-character string is
accepted and resolves md5. -/
theorem claim_C3_amended_witness :
    ∃ c : Checker,
      Checker.init (String.mk (List.replicate 33 'a')) 1 = .ok c ∧
      c.hash_fun = md5 :=
  (claim_C3_amended (String.mk (List.replicate 33 'a')) 1
    (by decide)).1 md5 (by decide)

/-- Counterexample to C4: for the 10-character digest `"aaaaaaaaaa"`
(byte length 5, matching no algorithm) construction does fail, but the
error message contains no digit at all, so it does not include the
unmatched length. -/
theorem claim_C4_cex :
    Checker.init "aaaaaaaaaa" (2 ^ 20)
        = .error (unknownHashMsg "aaaaaaaaaa") ∧
    (∀ ch ∈ (unknownHashMsg "aaaaaaaaaa").data, ch.isDigit = false) := by
  decide

/-- C4 (amended): for every digest string whose (floor-divided) byte
length matches no registered algorithm, construction fails with a
`ValueError` whose message includes the digest string itself — not the
numeric unmatched length — and no `Checker` is produced. -/
theorem claim_C4_amended (s : String) (bs : Int)
    (h : size_to_hash_lookup (s.length / 2) = none) :
    Checker.init s bs
      = .error ("Spack knows no hash algorithm for this digest: " ++ s) :=
  init_unknown s bs h

/-- Witness for the amended C4: the 10-character digest fails with the
message carrying the digest string. -/
theorem claim_C4_amended_witness :
    Checker.init "aaaaaaaaaa" (2 ^ 20)
      = .error ("Spack knows no hash algorithm for this digest: "
          ++ "aaaaaaaaaa") :=
  claim_C4_amended "aaaaaaaaaa" (2 ^ 20) (by decide)

/-- Counterexample to C10: with the negative block size `-1` on the
one-byte file `[97]`, `checksum` does not return the digest of the empty
byte sequence — the first read returns the whole file, so it returns the
digest of the full contents. -/
theorem claim_C10_cex :
    checksumContent md5 [97] (-1) ≠ hexEncode (md5.core []) ∧
    checksumContent md5 [97] (-1) = checksumContent md5 [97] (2 ^ 20) := by
  constructor
  · decide
  · decide

/-- C10 (amended): with block size 0 the first read returns zero bytes,
the loop stops at once and `checksum` returns the digest of the empty
byte sequence regardless of contents; with a negative block size the
first read returns the entire file, so `checksum` returns the digest of
the full contents; neither value is rejected. -/
theorem claim_C10_amended (a : HashAlgo) (content : List Nat) :
    checksumContent a content 0 = hexEncode (a.core []) ∧
    (∀ bs : Int, bs < 0 →
      (pyRead bs content).1 = content ∧
      checksumContent a content bs = hexEncode (a.core content)) := by
  refine ⟨?_, fun bs hbs => ⟨by simp [pyRead, hbs], ?_⟩⟩
  · rw [checksumContent, checksumLoop_zero]
  · exact checksumContent_eq a content bs (by omega)

/-- Witness for the amended C10: at block size `-1` on `[97]`, the read
returns the whole file and the digest is that of the full contents. -/
theorem claim_C10_amended_witness :
    (pyRead (-1) [97]).1 = [97] ∧
    checksumContent md5 [97] (-1) = hexEncode (md5.core [97]) :=
  (claim_C10_amended md5 [97]).2 (-1) (by omega)
